import Mathlib

/-!
Verification of the Forex news bot (forex_news_bot.py).

The Python source is embedded shallowly:
- the classifier loop of get_forex_news (lines 92-135) becomes classifyRow /
  classifyLoop / classifyRows over RawRow records (the per-row cell texts
  extracted by the parser, missing cells already defaulted to the empty string);
- Python substring tests (pat in s) become strIn;
- get_forex_news (lines 69-140) becomes a total function of a QueryEnv that
  records the outcomes of the external effects (timezone lookup, HTTP fetch,
  HTML parse); an exception raised inside the try block is the exn outcome;
- the scheduler task daily_news_announcement (lines 202-239), the startup
  handler on_ready (lines 247-276) and send_news_to_channel (lines 150-199)
  become state-passing functions over SchedState, with the outcome of each
  external Discord send recorded in the environment (a send either returns or
  raises; a raised send is an Except.error, caught by the task's outer
  try/except but escaping on_ready).
-/

namespace ForexBot

/-- Substring test on character lists: pat occurs contiguously in the list. -/
def containsAux (pat : List Char) : List Char → Bool
  | [] => pat.isEmpty
  | c :: rest => pat.isPrefixOf (c :: rest) || containsAux pat rest

/-- Python substring membership: strIn pat s models (pat in s). -/
def strIn (pat s : String) : Bool :=
  containsAux pat.data s.data

/-- Source line 28: set of currencies to ignore for all news. -/
def EXCLUDED_CURRENCIES : List String := ["AUD", "CAD", "CHF", "CNY", "NZD"]

/-- One scraped calendar table row, after cell-text extraction (source lines
93-127): each field is the stripped text of the named cell, the empty string
when the cell is missing; impact_class is the first CSS class of the impact
span containing the impact-icon marker, or the empty string. -/
structure RawRow where
  time : String
  currency : String
  impact_class : String
  event_name : String
  forecast : String
  previous : String
deriving DecidableEq, Repr

/-- The event dictionary appended at source lines 132-135. -/
structure NewsEvent where
  time : String
  currency : String
  impact : String
  event : String
  forecast : String
  previous : String
deriving DecidableEq, Repr

/-- Per-row body of the loop at source lines 93-135: excluded currency is
skipped (line 97), a row qualifying as none of holiday/high/medium is skipped
(lines 113-118), a Bank Holiday event name forces the impact class to
"holiday" (lines 129-131), and empty time/forecast/previous default to
"All Day"/"N/A"/"N/A" (lines 133-134). -/
def classifyRow (r : RawRow) : Option NewsEvent :=
  if r.currency ∈ EXCLUDED_CURRENCIES then none
  else if !((strIn "Bank Holiday" r.event_name || strIn "holiday" r.impact_class)
      || strIn "high" r.impact_class || strIn "medium" r.impact_class) then none
  else some {
    time := if r.time = "" then "All Day" else r.time
    currency := r.currency
    impact := if strIn "Bank Holiday" r.event_name then "holiday" else r.impact_class
    event := r.event_name
    forecast := if r.forecast = "" then "N/A" else r.forecast
    previous := if r.previous = "" then "N/A" else r.previous }

/-- The loop of source lines 92-135: events accumulates appended rows in order. -/
def classifyLoop : List RawRow → List NewsEvent → List NewsEvent
  | [], events => events
  | r :: rs, events =>
    match classifyRow r with
    | some e => classifyLoop rs (events ++ [e])
    | none => classifyLoop rs events

/-- Full classifier: the loop started with an empty accumulator (line 92). -/
def classifyRows (rows : List RawRow) : List NewsEvent :=
  classifyLoop rows []

/-- Impact level enumeration of the specification (section 3). -/
inductive ImpactLevel where
  | High
  | Medium
  | Holiday
  | Unknown
deriving DecidableEq, Repr

/-- Impact level read off a stored impact string, with the same substring
priority as format_impact_emoji (source lines 142-147). -/
def impactLevel (impact : String) : ImpactLevel :=
  if strIn "high" impact then .High
  else if strIn "medium" impact then .Medium
  else if strIn "holiday" impact then .Holiday
  else .Unknown

/-- Red circle emoji (U+1F534), source line 144. -/
def redCircle : String := String.mk [Char.ofNat 0x1F534]

/-- Orange circle emoji (U+1F7E0), source line 145. -/
def orangeCircle : String := String.mk [Char.ofNat 0x1F7E0]

/-- White circle emoji with variation selector (U+26AA U+FE0F), source line 146. -/
def whiteCircle : String := String.mk [Char.ofNat 0x26AA, Char.ofNat 0xFE0F]

/-- Black circle emoji with variation selector (U+26AB U+FE0F), source line 147. -/
def blackCircle : String := String.mk [Char.ofNat 0x26AB, Char.ofNat 0xFE0F]

/-- Source lines 142-147: converts impact CSS class to a colored emoji. -/
def format_impact_emoji (impact_class : String) : String :=
  if strIn "high" impact_class then redCircle
  else if strIn "medium" impact_class then orangeCircle
  else if strIn "holiday" impact_class then whiteCircle
  else blackCircle

/-- A calendar date (proleptic Gregorian, as Python datetime). -/
structure Date where
  year : Nat
  month : Nat
  day : Nat
deriving DecidableEq, Repr

/-- Month abbreviations produced by strftime of the percent-b directive. -/
def monthAbbrevs : List String :=
  ["Jan", "Feb", "Mar", "Apr", "May", "Jun",
   "Jul", "Aug", "Sep", "Oct", "Nov", "Dec"]

/-- strftime percent-b: abbreviated month name of month m (1-12). -/
def strftime_b (m : Nat) : String :=
  monthAbbrevs.getD (m - 1) ""

/-- Sakamoto weekday table. -/
def sakamotoT : List Nat := [0, 3, 2, 5, 0, 3, 5, 1, 4, 6, 2, 4]

/-- Day of week of a Gregorian date, 0 = Sunday (Sakamoto's method, matching
Python datetime's proleptic Gregorian calendar). -/
def weekdayIndex (y m d : Nat) : Nat :=
  let y' := if m < 3 then y - 1 else y
  (y' + y' / 4 - y' / 100 + y' / 400 + sakamotoT.getD (m - 1) 0 + d) % 7

/-- Full weekday names produced by strftime of the percent-A directive. -/
def weekdayNames : List String :=
  ["Sunday", "Monday", "Tuesday", "Wednesday", "Thursday", "Friday", "Saturday"]

/-- Zero-padded two-digit rendering (strftime percent-d). -/
def pad2 (n : Nat) : String :=
  if n < 10 then "0" ++ Nat.repr n else Nat.repr n

/-- Source line 78: target_date.strftime of "%A, %b %d, %Y". -/
def display_date (d : Date) : String :=
  weekdayNames.getD (weekdayIndex d.year d.month d.day) "" ++ ", "
    ++ strftime_b d.month ++ " " ++ pad2 d.day ++ ", " ++ Nat.repr d.year

/-- Python str.lower restricted to its ASCII action (the only characters the
month abbreviations contain). -/
def strLower (s : String) : String :=
  String.mk (s.data.map Char.toLower)

/-- Source line 79: the compact URL date token, lowercased percent-b month,
unpadded day, a dot, and the year. -/
def url_date_str (d : Date) : String :=
  strLower (strftime_b d.month) ++ Nat.repr d.day ++ "." ++ Nat.repr d.year

/-- Source line 80: the calendar URL with the date token as day parameter. -/
def calendar_url (d : Date) : String :=
  "https://www.forexfactory.com/calendar?day=" ++ url_date_str d

/-- Outcome of the fetch-and-parse prefix of the pipeline: either the ordered
row records extracted from the page, or exn, an exception raised anywhere
inside the try block of get_forex_news (network failure, raise_for_status on a
non-2xx response, or a parse error). -/
inductive FetchOutcome where
  | ok (rows : List RawRow)
  | exn
deriving DecidableEq, Repr

/-- Environment of one get_forex_news call: whether the pytz timezone lookup
at line 74 succeeds, the target date computed at line 77 (local now plus the
day offset, date arithmetic performed by the datetime library), and the
fetch-and-parse outcome. -/
structure QueryEnv where
  tzValid : Bool
  target_date : Date
  fetch : FetchOutcome
deriving DecidableEq, Repr

/-- Source lines 69-140: the query orchestrator. The try block computes the
display date and URL, fetches and parses the page, and runs the classifier
loop; an empty row list returns the display date with no events (lines 89-90),
an empty classifier result is also returned as none (line 137), and the except
clause at lines 138-140 converts any exception to the pair of the string
"Error" and no events. -/
def get_forex_news (env : QueryEnv) : String × Option (List NewsEvent) :=
  if env.tzValid = false then ("Error", none)
  else
    match env.fetch with
    | .exn => ("Error", none)
    | .ok rows =>
      if rows.isEmpty then (display_date env.target_date, none)
      else
        let events := classifyRows rows
        (display_date env.target_date, if events.isEmpty then none else some events)

/-- Environment of one send_news_to_channel call (source lines 150-199):
whether the destination is a TextChannel (line 155), the environment of the
inner get_forex_news call (line 159), and whether each of the three Discord
send calls raises if reached: the unprotected apology send at line 162, the
try-wrapped no-news send at lines 166-174, and the try-wrapped embed send at
lines 191-199. -/
structure SendEnv where
  isTextChannel : Bool
  query : QueryEnv
  apology_send_raises : Bool
  no_news_send_raises : Bool
  embed_send_raises : Bool
deriving DecidableEq, Repr

/-- Source lines 150-199: fetch and send news to a channel, returning whether
a message was sent. The apology send at line 162 is outside any try/except,
so its failure raises out of the function (the error case); the other two
sends are wrapped and their failure returns false. -/
def send_news_to_channel (env : SendEnv) : Except Unit Bool :=
  if env.isTextChannel = false then .ok false
  else
    let res := get_forex_news env.query
    if res.1 = "Error" then
      if env.apology_send_raises then .error () else .ok false
    else
      match res.2 with
      | none => if env.no_news_send_raises then .ok false else .ok true
      | some _ => if env.embed_send_raises then .ok false else .ok true

/-- True when the send_news_to_channel call returns (with either value)
rather than raising. -/
def sendReturns (env : SendEnv) : Bool :=
  match send_news_to_channel env with
  | .ok _ => true
  | .error _ => false

/-- Local wall-clock instant in the configured timezone: an abstract calendar
day index (chronologically ordered) and the minute of that local day. -/
structure LocalNow where
  date : Nat
  minute : Nat
deriving DecidableEq, Repr

/-- The bot configuration fields read by the scheduler (source lines 207-209);
a field is none when absent or falsy, making the all([...]) gate at line 211
fail. -/
structure SchedCfg where
  channel_id : Option Nat
  time : Option String
  timezone : Option String
deriving DecidableEq, Repr

/-- The scheduler state: the module global last_announcement_date (line 38). -/
structure SchedState where
  last_announcement_date : Option Nat
deriving DecidableEq, Repr

/-- Split a character list on a separator character. -/
def splitOnChar (sep : Char) : List Char → List (List Char)
  | [] => [[]]
  | x :: xs =>
    match splitOnChar sep xs with
    | [] => [[]]
    | g :: gs => if x = sep then [] :: g :: gs else (x :: g) :: gs

/-- Decimal value of a digit character list. -/
def digitsVal (cs : List Char) : Nat :=
  cs.foldl (fun a c => a * 10 + (c.toNat - 48)) 0

/-- Model of datetime.strptime with the pattern of hours, a colon, and
minutes (line 219): one or two digit hour below 24, a colon, one or two digit
minute below 60; the result is the minute of day. -/
def parseHHMM (s : String) : Option Nat :=
  match splitOnChar ':' s.data with
  | [h, m] =>
    if 0 < h.length ∧ h.length ≤ 2 ∧ h.all Char.isDigit
        ∧ 0 < m.length ∧ m.length ≤ 2 ∧ m.all Char.isDigit
        ∧ digitsVal h < 24 ∧ digitsVal m < 60 then
      some (digitsVal h * 60 + digitsVal m)
    else none
  | _ => none

/-- Environment of one scheduler tick: the local current instant (lines
214-216), whether bot.get_channel resolves the configured channel (line 226),
and the environment of the send_news_to_channel call (line 229). -/
structure TickEnv where
  now : LocalNow
  channelResolves : Bool
  send : SendEnv
deriving DecidableEq, Repr

/-- Channel-resolution and broadcast stage of a tick (source lines 226-234):
when the channel resolves the broadcast is attempted (the fired flag), and the
state update at line 230 runs only when the send call returns; a send that
raises is caught by the outer except at lines 238-239 after skipping the
update. An unresolvable channel only logs (line 237). -/
def tickFire (env : TickEnv) (st : SchedState) : SchedState × Bool :=
  if env.channelResolves then
    match send_news_to_channel env.send with
    | .ok _ => ({ last_announcement_date := some env.now.date }, true)
    | .error _ => (st, true)
  else (st, false)

/-- Trigger-condition stage of a tick (source line 225): proceed only when
the local time has reached the parsed target and the current local date
differs from last_announcement_date. -/
def tickWithTarget (target : Nat) (env : TickEnv) (st : SchedState) :
    SchedState × Bool :=
  if target ≤ env.now.minute ∧ some env.now.date ≠ st.last_announcement_date then
    tickFire env st
  else (st, false)

/-- Source lines 202-239: one tick of the daily_news_announcement task.
Returns the new state and whether the tick fired (attempted the broadcast at
line 229). Config completeness gate at line 211, time parse at lines 218-221,
then the trigger and broadcast stages. -/
def daily_news_announcement (cfg : SchedCfg) (env : TickEnv) (st : SchedState) :
    SchedState × Bool :=
  match cfg.channel_id, cfg.time, cfg.timezone with
  | some _, some time_str, some _ =>
    (match parseHHMM time_str with
     | some target => tickWithTarget target env st
     | none => (st, false))
  | _, _, _ => (st, false)

/-- True when the scheduler configuration makes every tick a no-op: a missing
field fails the all([...]) gate at line 211, and an unparseable time string
returns at lines 218-221. -/
def schedCfgInert (cfg : SchedCfg) : Bool :=
  match cfg.channel_id, cfg.time, cfg.timezone with
  | some _, some t, some _ => (parseHHMM t).isNone
  | _, _, _ => true

/-- Run a sequence of scheduler ticks from a state, returning the final state
and the list of local dates of the ticks that fired, in order. -/
def runTicks (cfg : SchedCfg) : SchedState → List TickEnv → SchedState × List Nat
  | st, [] => (st, [])
  | st, e :: es =>
    let step := daily_news_announcement cfg e st
    let rest := runTicks cfg step.1 es
    (rest.1, (if step.2 then [e.now.date] else []) ++ rest.2)

/-- Environment of the on_ready startup handler beyond the shared config:
whether bot.get_channel resolves (line 262), the send environment of the
startup send (line 264), and the current local date (line 267). -/
structure ReadyEnv where
  channelResolves : Bool
  send : SendEnv
  nowDate : Nat
deriving DecidableEq, Repr

/-- Source lines 247-276: the on_ready startup handler. A configured channel
id that resolves triggers an immediate send (line 264); afterwards, when a
timezone is configured, last_announcement_date is set to the current local
date whatever boolean the send returned (lines 265-272). on_ready has no
try/except, so a send that raises (the unprotected apology send at line 162)
skips the assignment. -/
def on_ready (cfg : SchedCfg) (env : ReadyEnv) (st : SchedState) : SchedState :=
  match cfg.channel_id with
  | some _ =>
    if env.channelResolves then
      match send_news_to_channel env.send with
      | .ok _ =>
        match cfg.timezone with
        | some _ => { last_announcement_date := some env.nowDate }
        | none => st
      | .error _ => st
    else st
  | none => st

/-- Example qualifying row (the end-to-end scenario of spec section 8). -/
def exRowHigh : RawRow :=
  ⟨"13:30", "USD", "calendar__impact-icon--high", "Non-Farm Payrolls", "180K", "150K"⟩

/-- Example excluded-currency row. -/
def exRowAud : RawRow :=
  ⟨"07:00", "AUD", "calendar__impact-icon--high", "Cash Rate", "4.1%", "4.1%"⟩

/-- Example unclassified-impact row. -/
def exRowLow : RawRow :=
  ⟨"09:00", "USD", "calendar__impact-icon--low", "Housing Starts", "1.1M", "1.2M"⟩

/-- Example bank-holiday row with an empty impact marker. -/
def exRowBank : RawRow :=
  ⟨"", "GBP", "", "UK Bank Holiday", "", ""⟩

/-- The event the classifier produces from exRowHigh. -/
def exEventHigh : NewsEvent :=
  ⟨"13:30", "USD", "calendar__impact-icon--high", "Non-Farm Payrolls", "180K", "150K"⟩

-- ### Helper lemmas about the classifier

theorem classifyLoop_eq (rows : List RawRow) :
    ∀ acc, classifyLoop rows acc = acc ++ rows.filterMap classifyRow := by
  induction rows with
  | nil => intro acc; simp [classifyLoop]
  | cons r rs ih =>
    intro acc
    cases h : classifyRow r <;> simp [classifyLoop, h, ih]

theorem classifyRows_eq_filterMap (rows : List RawRow) :
    classifyRows rows = rows.filterMap classifyRow := by
  simp [classifyRows, classifyLoop_eq]

theorem mem_classifyRows {rows : List RawRow} {e : NewsEvent}
    (h : e ∈ classifyRows rows) : ∃ r, r ∈ rows ∧ classifyRow r = some e := by
  rw [classifyRows_eq_filterMap] at h
  simpa using List.mem_filterMap.mp h

theorem classifyRow_some_facts {r : RawRow} {e : NewsEvent}
    (h : classifyRow r = some e) :
    r.currency ∉ EXCLUDED_CURRENCIES ∧ e.currency = r.currency ∧
    (strIn "high" e.impact || strIn "medium" e.impact || strIn "holiday" e.impact)
      = true := by
  unfold classifyRow at h
  by_cases hc : r.currency ∈ EXCLUDED_CURRENCIES
  · simp [hc] at h
  · rw [if_neg hc] at h
    by_cases hq : (!((strIn "Bank Holiday" r.event_name
        || strIn "holiday" r.impact_class)
        || strIn "high" r.impact_class || strIn "medium" r.impact_class)) = true
    · rw [if_pos hq] at h; exact absurd h (by simp)
    · rw [if_neg hq] at h
      have he := Option.some.inj h
      subst he
      refine ⟨hc, rfl, ?_⟩
      by_cases hbh : strIn "Bank Holiday" r.event_name = true
      · simp only [hbh, if_pos]
        decide
      · simp only [Bool.not_eq_true] at hbh
        simp only [hbh, if_neg, Bool.false_eq_true, not_false_eq_true]
        simp only [hbh, Bool.false_or, Bool.not_eq_true', Bool.or_eq_false_iff,
          not_and, Bool.not_eq_false] at hq
        cases h1 : strIn "high" r.impact_class <;>
          cases h2 : strIn "medium" r.impact_class <;>
            cases h3 : strIn "holiday" r.impact_class <;> simp_all

theorem impactLevel_of_qualifies {s : String}
    (h : (strIn "high" s || strIn "medium" s || strIn "holiday" s) = true) :
    impactLevel s = .High ∨ impactLevel s = .Medium ∨ impactLevel s = .Holiday := by
  unfold impactLevel
  cases h1 : strIn "high" s <;> cases h2 : strIn "medium" s <;>
    cases h3 : strIn "holiday" s <;> simp_all

theorem format_of_qualifies {s : String}
    (h : (strIn "high" s || strIn "medium" s || strIn "holiday" s) = true) :
    format_impact_emoji s ≠ blackCircle := by
  unfold format_impact_emoji
  cases h1 : strIn "high" s <;> cases h2 : strIn "medium" s <;>
    cases h3 : strIn "holiday" s <;> simp_all <;> decide

-- ### Claim theorems for the classifier

/-- C1: every event in the classifier's output has a currency outside
EXCLUDED_CURRENCIES and an impact level among High, Medium, Holiday (never
Unknown); and a row whose currency is excluded produces no output event,
whatever its impact token. -/
theorem classifier_output_invariant :
    (∀ (rows : List RawRow) (e : NewsEvent), e ∈ classifyRows rows →
      e.currency ∉ EXCLUDED_CURRENCIES ∧
      (impactLevel e.impact = .High ∨ impactLevel e.impact = .Medium ∨
        impactLevel e.impact = .Holiday) ∧ impactLevel e.impact ≠ .Unknown)
  ∧ (∀ r : RawRow, r.currency ∈ EXCLUDED_CURRENCIES → classifyRow r = none) := by
  constructor
  · intro rows e he
    obtain ⟨r, _, hr⟩ := mem_classifyRows he
    obtain ⟨hcur, hecur, hqual⟩ := classifyRow_some_facts hr
    have hlvl := impactLevel_of_qualifies hqual
    refine ⟨hecur ▸ hcur, hlvl, ?_⟩
    rcases hlvl with h | h | h <;> simp [h]
  · intro r hr
    unfold classifyRow
    rw [if_pos hr]

/-- C1 witness: on a concrete input battery the invariant holds and the
excluded row is dropped. -/
theorem classifier_output_invariant_witness :
    (exEventHigh.currency ∉ EXCLUDED_CURRENCIES ∧
      (impactLevel exEventHigh.impact = .High ∨
        impactLevel exEventHigh.impact = .Medium ∨
        impactLevel exEventHigh.impact = .Holiday) ∧
      impactLevel exEventHigh.impact ≠ .Unknown)
  ∧ classifyRow exRowAud = none :=
  ⟨classifier_output_invariant.1 [exRowAud, exRowHigh] exEventHigh (by decide),
   classifier_output_invariant.2 exRowAud (by decide)⟩

/-- C4: a row whose event name contains the string Bank Holiday, whatever its
impact token, yields an event whose stored impact is the string holiday and
whose impact level is Holiday. -/
theorem bank_holiday_override {r : RawRow} {e : NewsEvent}
    (hbh : strIn "Bank Holiday" r.event_name = true)
    (h : classifyRow r = some e) :
    e.impact = "holiday" ∧ impactLevel e.impact = .Holiday := by
  unfold classifyRow at h
  by_cases hc : r.currency ∈ EXCLUDED_CURRENCIES
  · simp [hc] at h
  · rw [if_neg hc] at h
    rw [if_neg (by simp [hbh])] at h
    have he := Option.some.inj h
    rw [← he]
    simp [hbh]
    decide

/-- C4 witness: a bank-holiday row with an empty impact marker is classified
Holiday. -/
theorem bank_holiday_override_witness :
    ∃ e, classifyRow exRowBank = some e ∧
      e.impact = "holiday" ∧ impactLevel e.impact = .Holiday :=
  ⟨⟨"All Day", "GBP", "holiday", "UK Bank Holiday", "N/A", "N/A"⟩,
   by decide,
   bank_holiday_override (r := exRowBank) (by decide) (by decide)⟩

/-- C5: a row whose impact token contains none of the strings high, medium,
holiday and whose event name does not contain Bank Holiday is dropped,
whatever its currency and other fields. -/
theorem unclassified_rows_dropped {r : RawRow}
    (h1 : strIn "high" r.impact_class = false)
    (h2 : strIn "medium" r.impact_class = false)
    (h3 : strIn "holiday" r.impact_class = false)
    (h4 : strIn "Bank Holiday" r.event_name = false) :
    classifyRow r = none := by
  unfold classifyRow
  by_cases hc : r.currency ∈ EXCLUDED_CURRENCIES
  · rw [if_pos hc]
  · rw [if_neg hc, if_pos (by simp [h1, h2, h3, h4])]

/-- C5 witness: a low-impact row is dropped. -/
theorem unclassified_rows_dropped_witness : classifyRow exRowLow = none :=
  unclassified_rows_dropped (r := exRowLow) (by decide) (by decide) (by decide)
    (by decide)

/-- C6: the classifier's output is the order-preserving filtered image of the
input rows (equal to filterMap of the per-row function, hence never
re-sorted), and it distributes over concatenation of row sequences. -/
theorem classifier_preserves_order :
    (∀ rows : List RawRow, classifyRows rows = rows.filterMap classifyRow)
  ∧ (∀ xs ys : List RawRow,
      classifyRows (xs ++ ys) = classifyRows xs ++ classifyRows ys) := by
  refine ⟨classifyRows_eq_filterMap, fun xs ys => ?_⟩
  simp [classifyRows_eq_filterMap]

/-- C7: for every classifier output event, the impact string matches at least
one of high, medium, holiday; the glyph is the red circle when high occurs,
the orange circle when medium (and not high) occurs, the white circle when
holiday (and neither high nor medium) occurs; the black default is never
reached. -/
theorem formatter_glyph_safety {rows : List RawRow} {e : NewsEvent}
    (h : e ∈ classifyRows rows) :
    (strIn "high" e.impact || strIn "medium" e.impact || strIn "holiday" e.impact)
      = true
  ∧ format_impact_emoji e.impact ≠ blackCircle
  ∧ (strIn "high" e.impact = true → format_impact_emoji e.impact = redCircle)
  ∧ (strIn "high" e.impact = false → strIn "medium" e.impact = true →
      format_impact_emoji e.impact = orangeCircle)
  ∧ (strIn "high" e.impact = false → strIn "medium" e.impact = false →
      strIn "holiday" e.impact = true →
      format_impact_emoji e.impact = whiteCircle) := by
  obtain ⟨r, _, hr⟩ := mem_classifyRows h
  obtain ⟨-, -, hqual⟩ := classifyRow_some_facts hr
  refine ⟨hqual, format_of_qualifies hqual, ?_, ?_, ?_⟩ <;>
    (intros; unfold format_impact_emoji; simp_all)

/-- C7 witness: the concrete high-impact event renders as the red circle and
not the black circle. -/
theorem formatter_glyph_safety_witness :
    format_impact_emoji exEventHigh.impact ≠ blackCircle ∧
    format_impact_emoji exEventHigh.impact = redCircle := by
  have h := @formatter_glyph_safety [exRowHigh] exEventHigh (by decide)
  exact ⟨h.2.1, h.2.2.1 (by decide)⟩

-- ### Orchestrator error normalization

/-- C3: whenever the timezone lookup, the fetch, or the parse raises inside
the try block of get_forex_news, the orchestrator returns the failed result
(the string Error and no events); being a total function of its environment,
it propagates no exception to its caller. -/
theorem orchestrator_error_normalization (env : QueryEnv)
    (h : env.tzValid = false ∨ env.fetch = .exn) :
    get_forex_news env = ("Error", none) := by
  unfold get_forex_news
  rcases h with h | h
  · rw [if_pos h]
  · by_cases h2 : env.tzValid = false
    · rw [if_pos h2]
    · rw [if_neg h2, h]

/-- C3 witness: a concrete query whose fetch raises yields the failed
result. -/
theorem orchestrator_error_normalization_witness :
    get_forex_news ⟨true, ⟨2025, 1, 5⟩, .exn⟩ = ("Error", none) :=
  orchestrator_error_normalization ⟨true, ⟨2025, 1, 5⟩, .exn⟩ (Or.inr rfl)

-- ### Decimal length machinery for the URL date token

/-- Number of decimal digits of a natural number. -/
def numDigits (n : Nat) : Nat :=
  if h : n < 10 then 1 else numDigits (n / 10) + 1
decreasing_by exact Nat.div_lt_self (by omega) (by omega)

theorem numDigits_base {m : Nat} (h : m < 10) : numDigits m = 1 := by
  rw [numDigits]
  exact dif_pos h

theorem numDigits_step {m : Nat} (h : 10 ≤ m) : numDigits m = numDigits (m / 10) + 1 := by
  rw [numDigits]
  exact dif_neg (by omega)

theorem toDigitsCore_length_eq :
    ∀ (fuel n : Nat) (acc : List Char), n < fuel →
      (Nat.toDigitsCore 10 fuel n acc).length = numDigits n + acc.length := by
  intro fuel
  induction fuel with
  | zero => intro n acc h; exact absurd h (Nat.not_lt_zero n)
  | succ f ih =>
    intro n acc h
    by_cases h0 : n / 10 = 0
    · have hn : n < 10 := by omega
      simp [Nat.toDigitsCore, h0, numDigits_base hn]
      omega
    · have hn : 10 ≤ n := by omega
      have hlt : n / 10 < f := by
        have := Nat.div_lt_self (by omega : 0 < n) (by omega : 1 < 10)
        omega
      simp only [Nat.toDigitsCore, h0, if_false]
      rw [ih (n / 10) _ hlt]
      simp [numDigits_step hn]
      omega

theorem repr_length_eq (n : Nat) : (Nat.repr n).length = numDigits n := by
  simp only [Nat.repr, Nat.toDigits, String.length, List.asString]
  have := toDigitsCore_length_eq (n + 1) n [] (Nat.lt_succ_self n)
  simpa using this

theorem repr_year_length {y : Nat} (h1 : 1000 ≤ y) (h2 : y ≤ 9999) :
    (Nat.repr y).length = 4 := by
  rw [repr_length_eq]
  have s1 := numDigits_step (m := y) (by omega)
  have s2 : numDigits (y / 10) = numDigits (y / 100) + 1 := by
    have h := numDigits_step (m := y / 10) (by omega)
    rwa [Nat.div_div_eq_div_mul, show (10 * 10 : Nat) = 100 from rfl] at h
  have s3 : numDigits (y / 100) = numDigits (y / 1000) + 1 := by
    have h := numDigits_step (m := y / 100) (by omega)
    rwa [Nat.div_div_eq_div_mul, show (100 * 10 : Nat) = 1000 from rfl] at h
  have s4 : numDigits (y / 1000) = 1 := numDigits_base (by omega)
  rw [s1, s2, s3, s4]

/-- C8: for every target date (month 1-12, day 1-31, four-digit year), the URL
date token is the lowercased three-letter month abbreviation, then the
day-of-month in decimal with no leading zero, a literal dot, and the year in
exactly four decimal digits; and the calendar URL is the calendar host's
calendar path with that token as the day query parameter. -/
theorem url_date_token_format {d : Date}
    (hm1 : 1 ≤ d.month) (hm2 : d.month ≤ 12)
    (hd1 : 1 ≤ d.day) (hd2 : d.day ≤ 31)
    (hy1 : 1000 ≤ d.year) (hy2 : d.year ≤ 9999) :
    url_date_str d
      = strLower (strftime_b d.month) ++ Nat.repr d.day ++ "." ++ Nat.repr d.year
  ∧ (strLower (strftime_b d.month)).length = 3
  ∧ (strLower (strftime_b d.month)).data.all Char.isLower = true
  ∧ (Nat.repr d.day).data.head? ≠ some '0'
  ∧ (Nat.repr d.day).data.all Char.isDigit = true
  ∧ (Nat.repr d.year).length = 4
  ∧ calendar_url d
      = "https://www.forexfactory.com/calendar?day=" ++ url_date_str d := by
  obtain ⟨y, m, dy⟩ := d
  simp only at hm1 hm2 hd1 hd2 hy1 hy2 ⊢
  refine ⟨rfl, ?_, ?_, ?_, ?_, repr_year_length hy1 hy2, rfl⟩
  · interval_cases m <;> decide
  · interval_cases m <;> decide
  · interval_cases dy <;> decide
  · interval_cases dy <;> decide

/-- C8 witness: the concrete example date renders as jan5.2025 with a
four-digit year. -/
theorem url_date_token_format_witness :
    (Nat.repr (2025 : Nat)).length = 4 ∧ url_date_str ⟨2025, 1, 5⟩ = "jan5.2025" :=
  ⟨(url_date_token_format (d := ⟨2025, 1, 5⟩) (by decide) (by decide) (by decide)
      (by decide) (by decide) (by decide)).2.2.2.2.2.1,
   by decide⟩

-- ### Scheduler helper lemmas

theorem bool_eq_false {b : Bool} (h : ¬ b = true) : b = false := by
  cases b
  · rfl
  · exact absurd rfl h

theorem daily_complete (c : Nat) (t z : String) (env : TickEnv) (st : SchedState) :
    daily_news_announcement ⟨some c, some t, some z⟩ env st
      = match parseHHMM t with
        | some target => tickWithTarget target env st
        | none => (st, false) := rfl

theorem tickFire_not_fired {env : TickEnv} {st : SchedState}
    (h : (tickFire env st).2 = false) : (tickFire env st).1 = st := by
  unfold tickFire at h ⊢
  by_cases hch : env.channelResolves = true
  · rw [if_pos hch] at h ⊢
    generalize send_news_to_channel env.send = r at h ⊢
    cases r <;> simp at h
  · rw [if_neg hch]

theorem tickFire_fired_iff {env : TickEnv} {st : SchedState} :
    (tickFire env st).2 = true ↔ env.channelResolves = true := by
  unfold tickFire
  by_cases hch : env.channelResolves = true
  · rw [if_pos hch]
    cases hs : send_news_to_channel env.send <;> simp [hch]
  · rw [if_neg hch]
    simp [hch]

theorem tickFire_fired_ok_state {env : TickEnv} {st : SchedState}
    (hok : sendReturns env.send = true) (h : (tickFire env st).2 = true) :
    (tickFire env st).1 = ⟨some env.now.date⟩ := by
  unfold tickFire at h ⊢
  by_cases hch : env.channelResolves = true
  · rw [if_pos hch] at h ⊢
    unfold sendReturns at hok
    generalize send_news_to_channel env.send = r at hok h ⊢
    cases r
    · simp at hok
    · rfl
  · rw [if_neg hch] at h
    simp at h

theorem tickWithTarget_not_fired {target : Nat} {env : TickEnv} {st : SchedState}
    (h : (tickWithTarget target env st).2 = false) :
    (tickWithTarget target env st).1 = st := by
  unfold tickWithTarget at h ⊢
  by_cases hcond : (target ≤ env.now.minute
      ∧ some env.now.date ≠ st.last_announcement_date)
  · rw [if_pos hcond] at h ⊢
    exact tickFire_not_fired h
  · rw [if_neg hcond]

theorem tickWithTarget_fired_iff {target : Nat} {env : TickEnv} {st : SchedState} :
    (tickWithTarget target env st).2 = true ↔
      (target ≤ env.now.minute ∧ some env.now.date ≠ st.last_announcement_date
        ∧ env.channelResolves = true) := by
  unfold tickWithTarget
  by_cases hcond : (target ≤ env.now.minute
      ∧ some env.now.date ≠ st.last_announcement_date)
  · rw [if_pos hcond, tickFire_fired_iff]
    exact ⟨fun h => ⟨hcond.1, hcond.2, h⟩, fun h => h.2.2⟩
  · rw [if_neg hcond]
    constructor
    · intro h; simp at h
    · rintro ⟨h1, h2, h3⟩
      exact absurd ⟨h1, h2⟩ hcond

theorem tickWithTarget_fired_ok_state {target : Nat} {env : TickEnv}
    {st : SchedState} (hok : sendReturns env.send = true)
    (h : (tickWithTarget target env st).2 = true) :
    (tickWithTarget target env st).1 = ⟨some env.now.date⟩ := by
  unfold tickWithTarget at h ⊢
  by_cases hcond : (target ≤ env.now.minute
      ∧ some env.now.date ≠ st.last_announcement_date)
  · rw [if_pos hcond] at h ⊢
    exact tickFire_fired_ok_state hok h
  · rw [if_neg hcond] at h
    simp at h

theorem daily_not_fired_state {cfg : SchedCfg} {env : TickEnv} {st : SchedState}
    (h : (daily_news_announcement cfg env st).2 = false) :
    (daily_news_announcement cfg env st).1 = st := by
  obtain ⟨cid, tm, tz⟩ := cfg
  rcases cid with _ | c <;> rcases tm with _ | t <;> rcases tz with _ | z <;> try rfl
  rw [daily_complete] at h ⊢
  generalize parseHHMM t = p at h ⊢
  cases p
  · rfl
  · rename_i target
    have h' : (tickWithTarget target env st).2 = false := h
    show (tickWithTarget target env st).1 = st
    exact tickWithTarget_not_fired h'

theorem daily_fired_date_ne {cfg : SchedCfg} {env : TickEnv} {st : SchedState}
    (h : (daily_news_announcement cfg env st).2 = true) :
    some env.now.date ≠ st.last_announcement_date := by
  obtain ⟨cid, tm, tz⟩ := cfg
  rcases cid with _ | c <;> rcases tm with _ | t <;> rcases tz with _ | z <;>
    try exact Bool.noConfusion (show false = true from h)
  rw [daily_complete] at h
  generalize parseHHMM t = p at h
  cases p
  · exact Bool.noConfusion (show false = true from h)
  · rename_i target
    have h' : (tickWithTarget target env st).2 = true := h
    exact (tickWithTarget_fired_iff.mp h').2.1

theorem daily_fired_ok_state {cfg : SchedCfg} {env : TickEnv} {st : SchedState}
    (hok : sendReturns env.send = true)
    (h : (daily_news_announcement cfg env st).2 = true) :
    (daily_news_announcement cfg env st).1 = ⟨some env.now.date⟩ := by
  obtain ⟨cid, tm, tz⟩ := cfg
  rcases cid with _ | c <;> rcases tm with _ | t <;> rcases tz with _ | z <;>
    try exact Bool.noConfusion (show false = true from h)
  rw [daily_complete] at h ⊢
  generalize parseHHMM t = p at h ⊢
  cases p
  · exact Bool.noConfusion (show false = true from h)
  · rename_i target
    have h' : (tickWithTarget target env st).2 = true := h
    show (tickWithTarget target env st).1 = _
    exact tickWithTarget_fired_ok_state hok h'

theorem daily_fired_iff {cfg : SchedCfg} {env : TickEnv} {st : SchedState}
    {t : String} {target : Nat}
    (hcid : cfg.channel_id.isSome = true) (ht : cfg.time = some t)
    (hz : cfg.timezone.isSome = true) (hp : parseHHMM t = some target) :
    (daily_news_announcement cfg env st).2 = true ↔
      (target ≤ env.now.minute ∧ some env.now.date ≠ st.last_announcement_date
        ∧ env.channelResolves = true) := by
  obtain ⟨cid, tm, tz⟩ := cfg
  rcases cid with _ | c
  · exact absurd hcid (by simp)
  rcases tm with _ | t'
  · exact absurd ht (by simp)
  rcases tz with _ | z
  · exact absurd hz (by simp)
  have ht' : t' = t := by simpa using ht
  subst ht'
  rw [daily_complete, hp]
  exact tickWithTarget_fired_iff

theorem tick_same_date_no_fire (cfg : SchedCfg) (env : TickEnv) (st : SchedState)
    (hsame : st.last_announcement_date = some env.now.date) :
    (daily_news_announcement cfg env st).2 = false := by
  obtain ⟨cid, tm, tz⟩ := cfg
  rcases cid with _ | c <;> rcases tm with _ | t <;> rcases tz with _ | z <;> try rfl
  rw [daily_complete]
  cases hp : parseHHMM t
  · rfl
  · rename_i target
    show (tickWithTarget target env st).2 = false
    unfold tickWithTarget
    rw [if_neg]
    rintro ⟨-, h2⟩
    exact h2 hsame.symm

theorem runTicks_cons (cfg : SchedCfg) (st : SchedState) (e : TickEnv)
    (es : List TickEnv) :
    runTicks cfg st (e :: es)
      = ((runTicks cfg (daily_news_announcement cfg e st).1 es).1,
        (if (daily_news_announcement cfg e st).2 then [e.now.date] else [])
          ++ (runTicks cfg (daily_news_announcement cfg e st).1 es).2) := rfl

theorem runTicks_fired_bounded (cfg : SchedCfg) :
    ∀ (envs : List TickEnv) (st : SchedState) (lb : Nat),
      st.last_announcement_date = some lb →
      (∀ e ∈ envs, lb ≤ e.now.date) →
      (envs.map fun e => e.now.date).Pairwise (· ≤ ·) →
      (∀ e ∈ envs, sendReturns e.send = true) →
      ((runTicks cfg st envs).2.Pairwise (· < ·) ∧
        ∀ x ∈ (runTicks cfg st envs).2, lb < x) := by
  intro envs
  induction envs with
  | nil => intro st lb _ _ _ _; simp [runTicks]
  | cons e es ih =>
    intro st lb hlast hlb hsorted hok
    have hsorted' : (es.map fun x => x.now.date).Pairwise (· ≤ ·) :=
      (List.pairwise_cons.mp hsorted).2
    have hhead : ∀ e' ∈ es, e.now.date ≤ e'.now.date := by
      intro e' he'
      exact (List.pairwise_cons.mp hsorted).1 _ (List.mem_map_of_mem _ he')
    have hok' : ∀ e' ∈ es, sendReturns e'.send = true :=
      fun e' he' => hok e' (List.mem_cons_of_mem _ he')
    rw [runTicks_cons]
    by_cases hf : (daily_news_announcement cfg e st).2 = true
    · have hst' : (daily_news_announcement cfg e st).1 = ⟨some e.now.date⟩ :=
        daily_fired_ok_state (hok e (List.mem_cons_self _ _)) hf
      have hne : some e.now.date ≠ st.last_announcement_date :=
        daily_fired_date_ne hf
      have hlt : lb < e.now.date := by
        have h1 := hlb e (List.mem_cons_self _ _)
        rcases Nat.lt_or_ge lb e.now.date with hx | hx
        · exact hx
        · exact absurd (by rw [hlast]; exact congrArg some (by omega)) hne
      have hih := ih (daily_news_announcement cfg e st).1 e.now.date
        (by rw [hst']) hhead hsorted' hok'
      rw [if_pos hf]
      simp only [List.singleton_append]
      constructor
      · rw [List.pairwise_cons]
        exact ⟨fun x hx => hih.2 x hx, hih.1⟩
      · intro x hx
        rcases List.mem_cons.mp hx with rfl | hx'
        · exact hlt
        · exact Nat.lt_trans hlt (hih.2 x hx')
    · have hst' : (daily_news_announcement cfg e st).1 = st :=
        daily_not_fired_state (bool_eq_false hf)
      rw [if_neg hf, hst']
      simp only [List.nil_append]
      exact ih st lb hlast (fun e' he' => hlb e' (List.mem_cons_of_mem _ he'))
        hsorted' hok'

theorem runTicks_fired_pairwise (cfg : SchedCfg) :
    ∀ (envs : List TickEnv) (st : SchedState),
      (envs.map fun e => e.now.date).Pairwise (· ≤ ·) →
      (∀ e ∈ envs, sendReturns e.send = true) →
      (runTicks cfg st envs).2.Pairwise (· < ·) := by
  intro envs
  induction envs with
  | nil => intro st _ _; simp [runTicks]
  | cons e es ih =>
    intro st hsorted hok
    have hsorted' : (es.map fun x => x.now.date).Pairwise (· ≤ ·) :=
      (List.pairwise_cons.mp hsorted).2
    have hhead : ∀ e' ∈ es, e.now.date ≤ e'.now.date := by
      intro e' he'
      exact (List.pairwise_cons.mp hsorted).1 _ (List.mem_map_of_mem _ he')
    have hok' : ∀ e' ∈ es, sendReturns e'.send = true :=
      fun e' he' => hok e' (List.mem_cons_of_mem _ he')
    rw [runTicks_cons]
    by_cases hf : (daily_news_announcement cfg e st).2 = true
    · have hst' : (daily_news_announcement cfg e st).1 = ⟨some e.now.date⟩ :=
        daily_fired_ok_state (hok e (List.mem_cons_self _ _)) hf
      have hb := runTicks_fired_bounded cfg es
        (daily_news_announcement cfg e st).1 e.now.date (by rw [hst']) hhead
        hsorted' hok'
      rw [if_pos hf]
      simp only [List.singleton_append]
      rw [List.pairwise_cons]
      exact ⟨fun x hx => hb.2 x hx, hb.1⟩
    · have hst' : (daily_news_announcement cfg e st).1 = st :=
        daily_not_fired_state (bool_eq_false hf)
      rw [if_neg hf, hst']
      simp only [List.nil_append]
      exact ih st hsorted' hok'

-- ### Concrete scheduler scenario values

/-- A complete, well-formed scheduler configuration with schedule time 08:00. -/
def cfg0 : SchedCfg := ⟨some 1, some "08:00", some "Europe/Zurich"⟩

/-- Initial scheduler state: no announcement sent yet. -/
def st0 : SchedState := ⟨none⟩

/-- Send environment in which the fetch raises (site down) and the apology
message send itself returns normally: send_news_to_channel returns false. -/
def sendOkEnv : SendEnv := ⟨true, ⟨true, ⟨2025, 1, 5⟩, .exn⟩, false, false, false⟩

/-- Send environment in which the fetch raises and the unprotected apology
send at line 162 also raises: send_news_to_channel raises. -/
def sendRaiseEnv : SendEnv := ⟨true, ⟨true, ⟨2025, 1, 5⟩, .exn⟩, true, false, false⟩

/-- Tick at minute 480 (08:00) of day 0 whose channel does not resolve. -/
def envNoChannel : TickEnv := ⟨⟨0, 480⟩, false, sendOkEnv⟩

/-- Tick at minute 480 of day 0 whose broadcast call raises. -/
def envRaise : TickEnv := ⟨⟨0, 480⟩, true, sendRaiseEnv⟩

/-- Tick at minute 480 of day 0 whose broadcast call returns. -/
def envOk : TickEnv := ⟨⟨0, 480⟩, true, sendOkEnv⟩

-- ### Scheduler claim theorems

/-- C2 counterexample: with complete configuration (time 08:00) and initial
state, (a) a tick at 08:00 whose configured channel does not resolve
satisfies the claimed trigger condition yet does not fire; (b) a tick whose
broadcast call raises fires but leaves lastFiredDate unchanged; (c) hence two
ticks on the same day can both fire, firing twice on day 0. -/
theorem daily_announcement_claim_cex :
    (480 ≤ envNoChannel.now.minute
      ∧ some envNoChannel.now.date ≠ st0.last_announcement_date
      ∧ (daily_news_announcement cfg0 envNoChannel st0).2 = false)
  ∧ ((daily_news_announcement cfg0 envRaise st0).2 = true
      ∧ (daily_news_announcement cfg0 envRaise st0).1 = st0)
  ∧ (runTicks cfg0 st0 [envRaise, envRaise]).2 = [0, 0] := by decide

/-- C2 amended: with complete configuration and a schedule time parsing to a
target minute, a tick fires iff the local time has reached the target, the
local date differs from lastFiredDate, and the channel resolves; a tick that
fires and whose broadcast call returns sets lastFiredDate to the current
date; and over any chronologically ordered tick sequence whose broadcast
calls all return, at most one tick fires per calendar date. -/
theorem daily_announcement_amended :
    (∀ (cfg : SchedCfg) (env : TickEnv) (st : SchedState) (t : String)
        (target : Nat),
      cfg.channel_id.isSome = true → cfg.timezone.isSome = true →
      cfg.time = some t → parseHHMM t = some target →
      ((daily_news_announcement cfg env st).2 = true ↔
        (target ≤ env.now.minute
          ∧ some env.now.date ≠ st.last_announcement_date
          ∧ env.channelResolves = true)))
  ∧ (∀ (cfg : SchedCfg) (env : TickEnv) (st : SchedState),
      (daily_news_announcement cfg env st).2 = true →
      sendReturns env.send = true →
      ((daily_news_announcement cfg env st).1).last_announcement_date
        = some env.now.date)
  ∧ (∀ (cfg : SchedCfg) (st : SchedState) (envs : List TickEnv),
      (envs.map fun e => e.now.date).Pairwise (· ≤ ·) →
      (∀ e ∈ envs, sendReturns e.send = true) →
      ∀ d, ((runTicks cfg st envs).2).count d ≤ 1) := by
  refine ⟨?_, ?_, ?_⟩
  · intro cfg env st t target hcid hz ht hp
    exact daily_fired_iff hcid ht hz hp
  · intro cfg env st hf hok
    rw [daily_fired_ok_state hok hf]
  · intro cfg st envs hsorted hok d
    have hp := runTicks_fired_pairwise cfg envs st hsorted hok
    have hnodup : ((runTicks cfg st envs).2).Nodup :=
      hp.imp (fun h => Nat.ne_of_lt h)
    exact List.nodup_iff_count_le_one.mp hnodup d

/-- C2 amended witness: the concrete 08:00 tick with resolving channel and
returning broadcast satisfies the iff, updates the state to day 0, and a
concrete run fires at most once on day 0. -/
theorem daily_announcement_amended_witness :
    ((daily_news_announcement cfg0 envOk st0).2 = true ↔
      (480 ≤ envOk.now.minute
        ∧ some envOk.now.date ≠ st0.last_announcement_date
        ∧ envOk.channelResolves = true))
  ∧ ((daily_news_announcement cfg0 envOk st0).1).last_announcement_date
      = some envOk.now.date
  ∧ ((runTicks cfg0 st0 [envOk, envOk]).2).count 0 ≤ 1 :=
  ⟨daily_announcement_amended.1 cfg0 envOk st0 "08:00" 480 (by decide)
      (by decide) (by decide) (by decide),
   daily_announcement_amended.2.1 cfg0 envOk st0 (by decide) (by decide),
   daily_announcement_amended.2.2 cfg0 st0 [envOk, envOk] (by decide)
      (by decide) 0⟩

/-- C9: when the configuration is missing the channel id, the time, or the
timezone, or the configured time fails to parse as HH:MM, every tick is a
no-op returning the state unchanged without firing, and any sequence of such
ticks leaves the state unchanged and fires nothing; the tick is a total
function, modelling the outer try/except that keeps the periodic driver
alive. -/
theorem bad_config_tick_noop (cfg : SchedCfg) (h : schedCfgInert cfg = true) :
    (∀ (env : TickEnv) (st : SchedState),
      daily_news_announcement cfg env st = (st, false))
  ∧ (∀ (st : SchedState) (envs : List TickEnv),
      runTicks cfg st envs = (st, [])) := by
  have h1 : ∀ (env : TickEnv) (st : SchedState),
      daily_news_announcement cfg env st = (st, false) := by
    intro env st
    obtain ⟨cid, tm, tz⟩ := cfg
    rcases cid with _ | c <;> rcases tm with _ | t <;> rcases tz with _ | z <;>
      try rfl
    have h' : (parseHHMM t).isNone = true := h
    have hp : parseHHMM t = none := Option.isNone_iff_eq_none.mp h'
    rw [daily_complete, hp]
  refine ⟨h1, fun st envs => ?_⟩
  induction envs with
  | nil => rfl
  | cons e es ih => simp [runTicks_cons, h1, ih]

/-- C9 witness: a concrete configuration whose time does not parse is a no-op
on a concrete tick and a concrete run. -/
theorem bad_config_tick_noop_witness :
    daily_news_announcement ⟨some 1, some "oops", some "Europe/Zurich"⟩ envOk st0
      = (st0, false)
  ∧ runTicks ⟨some 1, some "oops", some "Europe/Zurich"⟩ st0 [envOk, envOk]
      = (st0, []) :=
  ⟨(bad_config_tick_noop ⟨some 1, some "oops", some "Europe/Zurich"⟩
      (by decide)).1 envOk st0,
   (bad_config_tick_noop ⟨some 1, some "oops", some "Europe/Zurich"⟩
      (by decide)).2 st0 [envOk, envOk]⟩

/-- Startup environment whose channel resolves but whose send raises (fetch
fails and the unprotected apology send fails). -/
def readyRaise : ReadyEnv := ⟨true, sendRaiseEnv, 0⟩

/-- Startup environment whose channel resolves and whose send returns. -/
def readyOk : ReadyEnv := ⟨true, sendOkEnv, 0⟩

/-- C10 counterexample: with channel configured and resolvable and a timezone
configured, a startup send that raises (fetch failure plus failing apology
send) leaves lastFiredDate unset, and a scheduler tick later the same local
day does fire. -/
theorem on_ready_claim_cex :
    on_ready cfg0 readyRaise st0 = st0
  ∧ (daily_news_announcement cfg0 envOk (on_ready cfg0 readyRaise st0)).2
      = true := by decide

/-- C10 amended: on startup with a configured channel id that resolves and a
configured timezone, when the startup send call returns (whether or not it
reports success) the handler sets lastFiredDate to the current local date,
and afterwards no scheduler tick on that same local date fires. -/
theorem on_ready_amended (cfg : SchedCfg) (env : ReadyEnv) (st : SchedState)
    (hc : cfg.channel_id.isSome = true) (hr : env.channelResolves = true)
    (hz : cfg.timezone.isSome = true) (hok : sendReturns env.send = true) :
    on_ready cfg env st = ⟨some env.nowDate⟩
  ∧ ∀ tickEnv : TickEnv, tickEnv.now.date = env.nowDate →
      (daily_news_announcement cfg tickEnv (on_ready cfg env st)).2 = false := by
  have h1 : on_ready cfg env st = ⟨some env.nowDate⟩ := by
    obtain ⟨cid, tm, tz⟩ := cfg
    rcases cid with _ | c
    · exact absurd hc (by simp)
    rcases tz with _ | z
    · exact absurd hz (by simp)
    unfold on_ready
    rw [if_pos hr]
    unfold sendReturns at hok
    generalize send_news_to_channel env.send = r at hok ⊢
    cases r
    · simp at hok
    · rfl
  refine ⟨h1, fun tickEnv hdate => ?_⟩
  apply tick_same_date_no_fire
  rw [h1, hdate]

/-- C10 amended witness: the concrete startup whose send returns records day
0 and the concrete same-day tick does not fire. -/
theorem on_ready_amended_witness :
    on_ready cfg0 readyOk st0 = ⟨some 0⟩
  ∧ (daily_news_announcement cfg0 envOk (on_ready cfg0 readyOk st0)).2
      = false :=
  ⟨(on_ready_amended cfg0 readyOk st0 (by decide) (by decide) (by decide)
      (by decide)).1,
   (on_ready_amended cfg0 readyOk st0 (by decide) (by decide) (by decide)
      (by decide)).2 envOk rfl⟩

end ForexBot
